import Mathlib

/-!
Verification of the JSON parser library (`src/lib.rs`, `src/tokenize.rs`,
`src/parse.rs`) against its natural-language specification.

The Rust code is shallowly embedded: each Rust function becomes a Lean
definition of the same name, `&str` becomes `List Char` (Rust iterates
Unicode scalar values, exactly Lean `Char`), `f64` number payloads become
exact rationals `Rat` (Rust parses decimal literals to the nearest double;
the claims only compare values produced from identical decimal text, so the
exact rational value is a faithful abstraction of the common rounding), and
Rust `Result` plus the two panicking behaviours present in the source
(index-out-of-bounds on slice indexing, and the `todo` placeholder arm of
`parse_tokens`) become the five-outcome type `RRes`.  Recursion is expressed
structurally over an explicit fuel argument so that every definition reduces
definitionally; the fuel chosen by the entry points strictly dominates the
number of loop iterations and recursive calls the Rust code can make on the
same input, so `fuelOut` is unreachable there.
-/

namespace JsonParser

/-- Outcome of running a piece of the Rust code: `ok`/`err` mirror
`Result`, `oob` models a panic from out-of-bounds slice indexing,
`unimplemented` models the `todo` placeholder arm in `parse_tokens`, and
`fuelOut` is an artifact of the fuel encoding (unreachable for the fuel
amounts used by `tokenize` and `parse`). -/
inductive RRes (ε α : Type) where
  | ok (a : α)
  | err (e : ε)
  | oob
  | unimplemented
  | fuelOut
deriving DecidableEq, Repr

/-- Sequencing that propagates every non-`ok` outcome, like Rust `?`. -/
def RRes.andThen {ε α β : Type} : RRes ε α → (α → RRes ε β) → RRes ε β
  | .ok a, f => f a
  | .err e, _ => .err e
  | .oob, _ => .oob
  | .unimplemented, _ => .unimplemented
  | .fuelOut, _ => .fuelOut

/-- `Token` from `src/tokenize.rs`.  The number payload is the exact
rational value of the scanned decimal text (abstracting the `f64`). -/
inductive Token where
  | LeftBrace
  | RightBrace
  | LeftBracket
  | RightBracket
  | Comma
  | Colon
  | Null
  | False
  | True
  | Number (q : Rat)
  | String (s : String)
deriving DecidableEq, Repr

/-- `TokenizeError` from `src/tokenize.rs`.  The Rust `ParseNumberError`
variant carries a `ParseFloatError` detail value with no further structure;
the detail is abstracted away. -/
inductive TokenizeError where
  | UnfinishedLiteralValue
  | ParseNumberError
  | UnclosedQuotes
  | CharNotRecognized (c : Char)
deriving DecidableEq, Repr

/-- `TokenParseError` from `src/parse.rs`. -/
inductive TokenParseError where
  | UnfinishedEscape
  | InvalidHexValue
  | InvalidCodePointValue
  | ExpectedComma
  | ExpectedProperty
  | ExpectedColon
deriving DecidableEq, Repr

/-- Modelled from the spec: `src/value.rs` is not present in `src/`; the
variants follow spec section 3 and the constructor uses visible in
`src/parse.rs` (`Value::Null`, `Value::Boolean`, `Value::String`,
`Value::Number`, `Value::Array`, `Value::Object(HashMap)`).  The object is
a key-unique association list; `map_insert` below gives it the HashMap
insertion semantics the spec describes (duplicate insert overwrites). -/
inductive Value where
  | Null
  | Boolean (b : Bool)
  | String (s : String)
  | Number (q : Rat)
  | Array (vs : List Value)
  | Object (m : List (String × Value))
deriving Repr

/-- `ParseError` from `src/lib.rs`: the facade's two-variant error type. -/
inductive ParseError where
  | TokenizeError (e : TokenizeError)
  | TokenParseError (e : TokenParseError)
deriving DecidableEq, Repr

/-- Rust `char::is_whitespace`: the Unicode `White_Space` property. -/
def rust_is_whitespace (c : Char) : Bool :=
  c.toNat = 0x09 || c.toNat = 0x0A || c.toNat = 0x0B || c.toNat = 0x0C ||
  c.toNat = 0x0D || c.toNat = 0x20 || c.toNat = 0x85 || c.toNat = 0xA0 ||
  c.toNat = 0x1680 || (0x2000 ≤ c.toNat && c.toNat ≤ 0x200A) ||
  c.toNat = 0x2028 || c.toNat = 0x2029 || c.toNat = 0x202F ||
  c.toNat = 0x205F || c.toNat = 0x3000

/-- The character-by-character comparison loop of `tokenize_literal`:
for each expected character, Rust evaluates `chars[*index]` (panicking when
out of bounds) before comparing; on a mismatch it returns
`UnfinishedLiteralValue`; otherwise the index advances.  Returns the index
one past the literal. -/
def tokenize_literal_go : List Char → List Char → Nat → RRes TokenizeError Nat
  | [], _, index => .ok index
  | e :: es, chars, index =>
    match chars.get? index with
    | none => .oob
    | some c => if e = c then tokenize_literal_go es chars (index + 1)
                else .err .UnfinishedLiteralValue

/-- `tokenize_literal` from `src/tokenize.rs`: match the literal text
exactly, then step the index back one (the caller adds one afterwards). -/
def tokenize_literal (chars : List Char) (index : Nat) (literal : List Char)
    (token : Token) : RRes TokenizeError (Token × Nat) :=
  (tokenize_literal_go literal chars index).andThen fun i => .ok (token, i - 1)

/-- The greedy scan loop of `tokenize_float`: digits, and at most one
decimal point, are consumed; returns the accumulated text and the number of
characters consumed. -/
def float_loop : List Char → Bool → List Char × Nat
  | [], _ => ([], 0)
  | c :: cs, has_decimal =>
    if c.isDigit then
      let p := float_loop cs has_decimal
      (c :: p.1, p.2 + 1)
    else if c = '.' && !has_decimal then
      let p := float_loop cs true
      (c :: p.1, p.2 + 1)
    else ([], 0)

/-- Digit-string value, most significant first. -/
def digits_to_nat (ds : List Char) : Nat :=
  ds.foldl (fun a c => 10 * a + (c.toNat - 48)) 0

/-- Models Rust `f64::from_str` restricted to the character alphabet number
scanning can accumulate (digits and at most one decimal point): a non-empty
digit string, optionally split by one point with digits on at least one
side, parses to its exact rational value; anything else (in particular the
bare point) fails.  The rounding from the exact value to the nearest double
is abstracted away, as both sides of every claim about numbers denote the
rounding of the same decimal text. -/
def parse_float_q (cs : List Char) : Option Rat :=
  let ip := cs.takeWhile Char.isDigit
  let rest := cs.drop ip.length
  match rest with
  | [] => if ip.isEmpty then none else some (digits_to_nat ip)
  | '.' :: fp =>
    if fp.all Char.isDigit && !(ip.isEmpty && fp.isEmpty) then
      some ((digits_to_nat ip : Rat) + (digits_to_nat fp : Rat) / (10 ^ fp.length : Rat))
    else none
  | _ => none

/-- `tokenize_float` from `src/tokenize.rs`: scan greedily from `index`,
step the index back one, then parse the accumulated text; a parse failure
is `ParseNumberError`. -/
def tokenize_float (chars : List Char) (index : Nat) :
    RRes TokenizeError (Token × Nat) :=
  let p := float_loop (chars.drop index) false
  match parse_float_q p.1 with
  | some q => .ok (.Number q, index + p.2 - 1)
  | none => .err .ParseNumberError

/-- The scan loop of `tokenize_string`, over the characters after the
opening quote: running out of input is `UnclosedQuotes`; an unescaped quote
terminates (and is not accumulated); a backslash toggles the escaping flag
and any other character clears it; every non-terminating character is
accumulated verbatim.  Returns the raw content and the number of characters
consumed including the closing quote. -/
def tokenize_string_go : List Char → Bool → RRes TokenizeError (List Char × Nat)
  | [], _ => .err .UnclosedQuotes
  | c :: cs, is_escaping =>
    if c = '"' && !is_escaping then .ok ([], 1)
    else
      (tokenize_string_go cs (if c = '\\' then !is_escaping else false)).andThen
        fun p => .ok (c :: p.1, p.2 + 1)

/-- `tokenize_string` from `src/tokenize.rs`: the index starts at the
opening quote and is left at the closing quote. -/
def tokenize_string (chars : List Char) (index : Nat) :
    RRes TokenizeError (Token × Nat) :=
  (tokenize_string_go (chars.drop (index + 1)) false).andThen
    fun p => .ok (.String (String.mk p.1), index + p.2)

/-- The literal text `null`. -/
def null_literal : List Char := "null".data

/-- The literal text `true`. -/
def true_literal : List Char := "true".data

/-- The literal text `false`. -/
def false_literal : List Char := "false".data

/-- `make_token` from `src/tokenize.rs`: dispatch on the character under
the cursor, in the source's arm order.  Returns the token and the index of
its last character. -/
def make_token (chars : List Char) (index : Nat) :
    RRes TokenizeError (Token × Nat) :=
  match chars.get? index with
  | none => .oob
  | some ch =>
    if ch = '[' then .ok (.LeftBracket, index)
    else if ch = ']' then .ok (.RightBracket, index)
    else if ch = '{' then .ok (.LeftBrace, index)
    else if ch = '}' then .ok (.RightBrace, index)
    else if ch = ',' then .ok (.Comma, index)
    else if ch = ':' then .ok (.Colon, index)
    else if ch = 'n' then tokenize_literal chars index null_literal .Null
    else if ch = 't' then tokenize_literal chars index true_literal .True
    else if ch = 'f' then tokenize_literal chars index false_literal .False
    else if ch.isDigit then tokenize_float chars index
    else if ch = '"' then tokenize_string chars index
    else .err (.CharNotRecognized ch)

/-- The `while index < chars.len()` loop of `tokenize`: skip whitespace,
otherwise emit one token, then advance one past the token's last
character.  Fuel-indexed; the index strictly increases every iteration, so
`chars.length + 1` fuel never runs out. -/
def tokenize_loop : Nat → List Char → Nat → List Token → RRes TokenizeError (List Token)
  | 0, _, _, _ => .fuelOut
  | fuel + 1, chars, index, tokens =>
    match chars.get? index with
    | none => .ok tokens
    | some c =>
      if rust_is_whitespace c then tokenize_loop fuel chars (index + 1) tokens
      else
        (make_token chars index).andThen fun p =>
          tokenize_loop fuel chars (p.2 + 1) (tokens ++ [p.1])

/-- `tokenize` from `src/tokenize.rs`. -/
def tokenize (input : List Char) : RRes TokenizeError (List Token) :=
  tokenize_loop (input.length + 1) input 0 []

/-- Rust `char::to_digit(16)`: hexadecimal digit value of a character. -/
def hex_val (c : Char) : Option Nat :=
  if '0' ≤ c ∧ c ≤ '9' then some (c.toNat - 48)
  else if 'a' ≤ c ∧ c ≤ 'f' then some (c.toNat - 97 + 10)
  else if 'A' ≤ c ∧ c ≤ 'F' then some (c.toNat - 65 + 10)
  else none

/-- Rust `char::from_u32`: `some` exactly on Unicode scalar values. -/
def char_from_u32 (n : Nat) : Option Char :=
  if h : n.isValidChar then some (Char.ofNatAux n h) else none

/-- Prepend one output character to an unescaping result (the `output.push`
of `unescape_string`, expressed on the remaining output). -/
def push_char (c : Char) : Except TokenParseError (List Char) → Except TokenParseError (List Char)
  | .ok out => .ok (c :: out)
  | .error e => .error e

/-- The body of the source's four-iteration `u`-escape loop when all four
characters exist: the characters are converted in order (`InvalidHexValue`
at the first non-hex one), the digit values combined as
`16 ^ 3 * d1 + 16 ^ 2 * d2 + 16 ^ 1 * d3 + 16 ^ 0 * d4` (the source's
`16u32.pow(3 - i)` accumulation), and the sum converted with
`char_from_u32` (`InvalidCodePointValue` when not a scalar value). -/
def decode4 (c1 c2 c3 c4 : Char) : Except TokenParseError Char :=
  match hex_val c1 with
  | none => .error .InvalidHexValue
  | some d1 =>
    match hex_val c2 with
    | none => .error .InvalidHexValue
    | some d2 =>
      match hex_val c3 with
      | none => .error .InvalidHexValue
      | some d3 =>
        match hex_val c4 with
        | none => .error .InvalidHexValue
        | some d4 =>
          match char_from_u32 (16 ^ 3 * d1 + 16 ^ 2 * d2 + 16 ^ 1 * d3 + 16 ^ 0 * d4) with
          | none => .error .InvalidCodePointValue
          | some ch => .ok ch

/-- The source's `u`-escape loop when fewer than four characters remain:
each remaining character is polled and converted in order, so the first
non-hex character yields `InvalidHexValue`, and exhausting the input with
only hex digits seen yields `UnfinishedEscape`. -/
def u_short_err : List Char → TokenParseError
  | [] => .UnfinishedEscape
  | c :: cs =>
    match hex_val c with
    | none => .InvalidHexValue
    | some _ => u_short_err cs

/-- The character loop of `unescape_string` from `src/parse.rs`, with the
`is_escaping` flag explicit.  While escaping, the source's escape table
applies (note `f` maps to code point 18, not the form feed 12); the `u` arm
reads exactly four characters through `decode4`, or reports `u_short_err`
when the input ends first.  An unrecognized escaped character is passed
through verbatim. -/
def unescape_go : List Char → Bool → Except TokenParseError (List Char)
  | [], _ => .ok []
  | c :: cs, false =>
    if c = '\\' then unescape_go cs true
    else push_char c (unescape_go cs false)
  | '"' :: cs, true => push_char '"' (unescape_go cs false)
  | '\\' :: cs, true => push_char '\\' (unescape_go cs false)
  | 'b' :: cs, true => push_char (Char.ofNat 8) (unescape_go cs false)
  | 'f' :: cs, true => push_char (Char.ofNat 18) (unescape_go cs false)
  | 'n' :: cs, true => push_char (Char.ofNat 10) (unescape_go cs false)
  | 'r' :: cs, true => push_char (Char.ofNat 13) (unescape_go cs false)
  | 't' :: cs, true => push_char (Char.ofNat 9) (unescape_go cs false)
  | 'u' :: c1 :: c2 :: c3 :: c4 :: cs4, true =>
    match decode4 c1 c2 c3 c4 with
    | .error e => .error e
    | .ok ch => push_char ch (unescape_go cs4 false)
  | 'u' :: short, true => .error (u_short_err short)
  | c :: cs, true => push_char c (unescape_go cs false)

/-- `unescape_string` from `src/parse.rs`. -/
def unescape_string (input : String) : Except TokenParseError String :=
  match unescape_go input.data false with
  | .ok out => .ok (String.mk out)
  | .error e => .error e

/-- `parse_string` from `src/parse.rs`. -/
def parse_string (input : String) : RRes TokenParseError Value :=
  match unescape_string input with
  | .ok u => .ok (.String u)
  | .error e => .err e

/-- Modelled from the spec: `HashMap::insert` semantics for the object
representation (spec section 3: keys unique, inserting a duplicate key
overwrites the previous value); iteration order of the hash map is
abstracted to the association-list order. -/
def map_insert (map : List (String × Value)) (key : String) (v : Value) :
    List (String × Value) :=
  if map.any (fun p => p.1 == key) then
    map.map (fun p => if p.1 == key then (key, v) else p)
  else map ++ [(key, v)]

/-- The `loop` of `parse_array` from `src/parse.rs`, parameterized by the
value parser `pt` (instantiated with `parse_tokens` at the previous fuel).
Each iteration first advances the index past the separator (the opening
bracket on the first iteration, the comma afterwards), indexing the token
sequence (panic when out of tokens): `RightBracket` stops; otherwise one
value is parsed, and the token at the resulting index must be `Comma`
(continue) or `RightBracket` (stop), anything else failing with
`ExpectedComma`.  Stopping returns the elements and the index one past the
closing bracket. -/
def parse_array_loop (pt : List Token → Nat → RRes TokenParseError (Value × Nat)) :
    Nat → List Token → Nat → List Value → RRes TokenParseError (Value × Nat)
  | 0, _, _, _ => .fuelOut
  | fuel + 1, tokens, index, arr =>
    match tokens.get? (index + 1) with
    | none => .oob
    | some .RightBracket => .ok (.Array arr, index + 2)
    | some _ =>
      (pt tokens (index + 1)).andThen fun p =>
        match tokens.get? p.2 with
        | none => .oob
        | some .Comma => parse_array_loop pt fuel tokens p.2 (arr ++ [p.1])
        | some .RightBracket => .ok (.Array (arr ++ [p.1]), p.2 + 1)
        | some _ => .err .ExpectedComma

/-- The `loop` of `parse_object` from `src/parse.rs`, parameterized like
`parse_array_loop`.  Each iteration advances past the separator and indexes
the token sequence: `RightBrace` stops; a non-string token fails with
`ExpectedProperty`; after a string key the next token is indexed and must
be `Colon` (else `ExpectedColon`); the key is unescaped, the value parsed,
the pair inserted, and the token at the resulting index must be `Comma`
(continue) or `RightBrace` (stop), anything else failing with
`ExpectedComma`. -/
def parse_object_loop (pt : List Token → Nat → RRes TokenParseError (Value × Nat)) :
    Nat → List Token → Nat → List (String × Value) → RRes TokenParseError (Value × Nat)
  | 0, _, _, _ => .fuelOut
  | fuel + 1, tokens, index, map =>
    match tokens.get? (index + 1) with
    | none => .oob
    | some .RightBrace => .ok (.Object map, index + 2)
    | some (.String s) =>
      match tokens.get? (index + 2) with
      | none => .oob
      | some .Colon =>
        match unescape_string s with
        | .error e => .err e
        | .ok key =>
          (pt tokens (index + 3)).andThen fun p =>
            match tokens.get? p.2 with
            | none => .oob
            | some .Comma => parse_object_loop pt fuel tokens p.2 (map_insert map key p.1)
            | some .RightBrace => .ok (.Object (map_insert map key p.1), p.2 + 1)
            | some _ => .err .ExpectedComma
      | some _ => .err .ExpectedColon
    | some _ => .err .ExpectedProperty

/-- `parse_tokens` from `src/parse.rs`: dispatch on the token under the
cursor, indexing the token sequence (panic when the cursor is out of
bounds).  Literal, number and string tokens consume one token; `[` and `{`
delegate to the array and object loops; the remaining tokens hit the
source's `todo` placeholder arm.  Returns the value and the final cursor.
Fuel-indexed; nesting strictly advances the cursor, so the fuel used by
`parse` below never runs out. -/
def parse_tokens : Nat → List Token → Nat → RRes TokenParseError (Value × Nat)
  | 0, _, _ => .fuelOut
  | fuel + 1, tokens, index =>
    match tokens.get? index with
    | none => .oob
    | some .Null => .ok (.Null, index + 1)
    | some .False => .ok (.Boolean false, index + 1)
    | some .True => .ok (.Boolean true, index + 1)
    | some (.Number q) => .ok (.Number q, index + 1)
    | some (.String s) =>
      (parse_string s).andThen fun v => .ok (v, index + 1)
    | some .LeftBracket => parse_array_loop (parse_tokens fuel) fuel tokens index []
    | some .LeftBrace => parse_object_loop (parse_tokens fuel) fuel tokens index []
    | some _ => .unimplemented

/-- `parse_array` from `src/parse.rs`: its loop, with nested values parsed
at the previous fuel (this is what the `LeftBracket` arm of `parse_tokens`
expands to). -/
def parse_array (fuel : Nat) (tokens : List Token) (index : Nat) :
    RRes TokenParseError (Value × Nat) :=
  parse_array_loop (parse_tokens fuel) fuel tokens index []

/-- `parse_object` from `src/parse.rs`, analogously. -/
def parse_object (fuel : Nat) (tokens : List Token) (index : Nat) :
    RRes TokenParseError (Value × Nat) :=
  parse_object_loop (parse_tokens fuel) fuel tokens index []

/-- Fuel sufficient for `parse_tokens` on a given token sequence: every
recursive call and loop iteration strictly advances the cursor within at
most three fuel decrements, and the cursor cannot pass the sequence length
without aborting. -/
def parse_fuel (tokens : List Token) : Nat := 4 * tokens.length + 4

/-- `parse` from `src/lib.rs`: tokenize, then parse the token sequence from
cursor zero, wrapping each stage's error in the corresponding `ParseError`
variant; panic outcomes propagate unchanged. -/
def parse (input : List Char) : RRes ParseError Value :=
  match tokenize input with
  | .ok tokens =>
    match parse_tokens (parse_fuel tokens) tokens 0 with
    | .ok p => .ok p.1
    | .err e => .err (.TokenParseError e)
    | .oob => .oob
    | .unimplemented => .unimplemented
    | .fuelOut => .fuelOut
  | .err e => .err (.TokenizeError e)
  | .oob => .oob
  | .unimplemented => .unimplemented
  | .fuelOut => .fuelOut

/-- On an input of whitespace characters only, the tokenize loop emits no
token and terminates successfully with whatever it has accumulated. -/
theorem tokenize_loop_whitespace :
    ∀ (fuel : Nat) (chars : List Char) (index : Nat) (tokens : List Token),
      chars.all rust_is_whitespace = true →
      chars.length - index < fuel →
      tokenize_loop fuel chars index tokens = .ok tokens := by
  intro fuel
  induction fuel with
  | zero => intro chars index tokens _ h; omega
  | succ n ih =>
    intro chars index tokens hall hlt
    unfold tokenize_loop
    cases hget : chars.get? index with
    | none => rfl
    | some c =>
      have hmem : c ∈ chars := List.get?_mem hget
      have hc : rust_is_whitespace c = true := List.all_eq_true.mp hall c hmem
      have hidx : index < chars.length := by
        rcases List.get?_eq_some.mp hget with ⟨h, _⟩
        exact h
      have hrec := ih chars (index + 1) tokens hall (by omega)
      simp [hc, hrec]

/-- Claim C1: the spec requires a typed error and no panic on the
truncated keyword `tru` and on the bracketless `[1,2`; the source instead
indexes past the end of the character sequence (`tokenize_literal`) and of
the token sequence (`parse_array` / `parse_tokens`), which is an
out-of-bounds panic, the ungoverned-indexing defect the spec itself flags. -/
theorem C1_truncated_input_reads_past_end :
    parse "tru".data = .oob ∧ parse "[1,2".data = .oob :=
  ⟨rfl, rfl⟩

/-- Claim C2: `parse` is exactly tokenize followed by `parse_tokens` from
cursor zero, wrapping a tokenize-stage error in `ParseError.TokenizeError`,
a parse-stage error in `ParseError.TokenParseError`, and passing a
successful value through unchanged. -/
theorem C2_parse_is_tokenize_then_parse_tokens :
    ∀ input : List Char,
      (∀ e, tokenize input = .err e →
        parse input = .err (.TokenizeError e)) ∧
      (∀ tokens e, tokenize input = .ok tokens →
        parse_tokens (parse_fuel tokens) tokens 0 = .err e →
        parse input = .err (.TokenParseError e)) ∧
      (∀ tokens v i, tokenize input = .ok tokens →
        parse_tokens (parse_fuel tokens) tokens 0 = .ok (v, i) →
        parse input = .ok v) := by
  intro input
  refine ⟨fun e h => ?_, fun tokens e h1 h2 => ?_, fun tokens v i h1 h2 => ?_⟩
  · simp [parse, h]
  · simp [parse, h1, h2]
  · simp [parse, h1, h2]

/-- Witness for C2: a tokenize-stage error, a parse-stage error, and a
success, each produced through the composition theorem. -/
theorem C2_witness :
    parse "@".data = .err (.TokenizeError (.CharNotRecognized '@')) ∧
    parse "[true true]".data = .err (.TokenParseError .ExpectedComma) ∧
    parse "true".data = .ok (.Boolean true) :=
  ⟨(C2_parse_is_tokenize_then_parse_tokens _).1 (.CharNotRecognized '@') rfl,
   (C2_parse_is_tokenize_then_parse_tokens _).2.1
     [Token.LeftBracket, .True, .True, .RightBracket] .ExpectedComma rfl rfl,
   (C2_parse_is_tokenize_then_parse_tokens _).2.2
     [Token.True] (.Boolean true) 1 rfl rfl⟩

/-- Claim C3: the five literal and number inputs parse to exactly the
stated values (number payloads are the exact rational values of the
decimal text, the embedding's reading of `123.0` and `1.23`). -/
theorem C3_literal_and_number_inputs :
    parse "null".data = .ok .Null ∧
    parse "true".data = .ok (.Boolean true) ∧
    parse "false".data = .ok (.Boolean false) ∧
    parse "123".data = .ok (.Number 123) ∧
    parse "1.23".data = .ok (.Number (123 / 100)) := by
  refine ⟨rfl, rfl, rfl, ?_, ?_⟩
  · have h : parse "123".data = .ok (.Number ((123 : Nat) : Rat)) := rfl
    rw [h]; norm_num
  · have h : parse "1.23".data =
        .ok (.Number (((1 : Nat) : Rat) + ((23 : Nat) : Rat) / ((10 : Rat) ^ 2))) := rfl
    rw [h]; norm_num

/-- Claim C4: trailing commas before the closing bracket or brace parse
successfully, the empty containers parse successfully, and — the uniform
mechanism — whenever the token after the separator is the closing
`RightBracket` (resp. `RightBrace`), the array (resp. object) loop stops
at once and returns, covering the empty container and the trailing comma
with the same test. -/
theorem C4_trailing_comma_and_empty_containers :
    parse "[true,]".data = .ok (.Array [.Boolean true]) ∧
    parse "\x7b\"key\":\"value\",\x7d".data =
      .ok (.Object [("key", .String "value")]) ∧
    parse "[]".data = .ok (.Array []) ∧
    parse "\x7b\x7d".data = .ok (.Object []) ∧
    (∀ fuel tokens index, tokens.get? (index + 1) = some .RightBracket →
      parse_array (fuel + 1) tokens index = .ok (.Array [], index + 2)) ∧
    (∀ fuel tokens index, tokens.get? (index + 1) = some .RightBrace →
      parse_object (fuel + 1) tokens index = .ok (.Object [], index + 2)) := by
  refine ⟨rfl, rfl, rfl, rfl, fun fuel tokens index h => ?_, fun fuel tokens index h => ?_⟩
  · rw [List.get?_eq_getElem?] at h
    simp [parse_array, parse_array_loop, h]
  · rw [List.get?_eq_getElem?] at h
    simp [parse_object, parse_object_loop, h]

/-- Witness for C4: the loop-stop conjuncts applied at the empty array and
empty object token sequences. -/
theorem C4_witness :
    parse_array 1 [Token.LeftBracket, Token.RightBracket] 0 = .ok (.Array [], 2) ∧
    parse_object 1 [Token.LeftBrace, Token.RightBrace] 0 = .ok (.Object [], 2) :=
  ⟨C4_trailing_comma_and_empty_containers.2.2.2.2.1 0
     [Token.LeftBracket, Token.RightBracket] 0 rfl,
   C4_trailing_comma_and_empty_containers.2.2.2.2.2 0
     [Token.LeftBrace, Token.RightBrace] 0 rfl⟩

/-- Claim C5: a `u` escape reads exactly four characters: four hex digits
combine big-endian and convert through `char_from_u32`, failing with
`InvalidCodePointValue` on a non-scalar value; running out of input while
the characters read so far are hex digits fails with `UnfinishedEscape`;
the first non-hex character among the four fails with `InvalidHexValue`;
and concretely `A` decodes to `A` while `hello\\world` unescapes to
`hello\world`. -/
theorem C5_unicode_escape_decoding :
    (∀ c1 c2 c3 c4 rest d1 d2 d3 d4 ch,
      hex_val c1 = some d1 → hex_val c2 = some d2 →
      hex_val c3 = some d3 → hex_val c4 = some d4 →
      char_from_u32 (16 ^ 3 * d1 + 16 ^ 2 * d2 + 16 ^ 1 * d3 + 16 ^ 0 * d4) = some ch →
      unescape_go ('u' :: c1 :: c2 :: c3 :: c4 :: rest) true =
        push_char ch (unescape_go rest false)) ∧
    (∀ c1 c2 c3 c4 rest d1 d2 d3 d4,
      hex_val c1 = some d1 → hex_val c2 = some d2 →
      hex_val c3 = some d3 → hex_val c4 = some d4 →
      char_from_u32 (16 ^ 3 * d1 + 16 ^ 2 * d2 + 16 ^ 1 * d3 + 16 ^ 0 * d4) = none →
      unescape_go ('u' :: c1 :: c2 :: c3 :: c4 :: rest) true =
        .error .InvalidCodePointValue) ∧
    (∀ cs, cs.length < 4 → cs.all (fun c => (hex_val c).isSome) = true →
      unescape_go ('u' :: cs) true = .error .UnfinishedEscape) ∧
    (∀ c1 c2 c3 c4 rest,
      (hex_val c1 = none ∨
       ((hex_val c1).isSome = true ∧ hex_val c2 = none) ∨
       ((hex_val c1).isSome = true ∧ (hex_val c2).isSome = true ∧ hex_val c3 = none) ∨
       ((hex_val c1).isSome = true ∧ (hex_val c2).isSome = true ∧
        (hex_val c3).isSome = true ∧ hex_val c4 = none)) →
      unescape_go ('u' :: c1 :: c2 :: c3 :: c4 :: rest) true =
        .error .InvalidHexValue) ∧
    unescape_string "\\u0041" = .ok "A" ∧
    unescape_string "hello\\\\world" = .ok "hello\\world" := by
  refine ⟨?_, ?_, ?_, ?_, rfl, rfl⟩
  · intro c1 c2 c3 c4 rest d1 d2 d3 d4 ch h1 h2 h3 h4 h5
    simp only [unescape_go, decode4, h1, h2, h3, h4, h5]
  · intro c1 c2 c3 c4 rest d1 d2 d3 d4 h1 h2 h3 h4 h5
    simp only [unescape_go, decode4, h1, h2, h3, h4, h5]
  · intro cs hlen hall
    rcases cs with _ | ⟨a, _ | ⟨b, _ | ⟨c, _ | ⟨d, t⟩⟩⟩⟩
    · simp only [unescape_go, u_short_err]
    · simp only [List.all_cons, List.all_nil, Bool.and_true] at hall
      obtain ⟨da, hda⟩ := Option.isSome_iff_exists.mp hall
      simp only [unescape_go, u_short_err, hda]
    · simp only [List.all_cons, List.all_nil, Bool.and_true, Bool.and_eq_true] at hall
      obtain ⟨da, hda⟩ := Option.isSome_iff_exists.mp hall.1
      obtain ⟨db, hdb⟩ := Option.isSome_iff_exists.mp hall.2
      simp only [unescape_go, u_short_err, hda, hdb]
    · simp only [List.all_cons, List.all_nil, Bool.and_true, Bool.and_eq_true] at hall
      obtain ⟨da, hda⟩ := Option.isSome_iff_exists.mp hall.1
      obtain ⟨db, hdb⟩ := Option.isSome_iff_exists.mp hall.2.1
      obtain ⟨dc, hdc⟩ := Option.isSome_iff_exists.mp hall.2.2
      simp only [unescape_go, u_short_err, hda, hdb, hdc]
    · simp only [List.length_cons] at hlen; omega
  · intro c1 c2 c3 c4 rest hbad
    rcases hbad with h1 | ⟨h1, h2⟩ | ⟨h1, h2, h3⟩ | ⟨h1, h2, h3, h4⟩
    · simp only [unescape_go, decode4, h1]
    · obtain ⟨d1, hd1⟩ := Option.isSome_iff_exists.mp h1
      simp only [unescape_go, decode4, hd1, h2]
    · obtain ⟨d1, hd1⟩ := Option.isSome_iff_exists.mp h1
      obtain ⟨d2, hd2⟩ := Option.isSome_iff_exists.mp h2
      simp only [unescape_go, decode4, hd1, hd2, h3]
    · obtain ⟨d1, hd1⟩ := Option.isSome_iff_exists.mp h1
      obtain ⟨d2, hd2⟩ := Option.isSome_iff_exists.mp h2
      obtain ⟨d3, hd3⟩ := Option.isSome_iff_exists.mp h3
      simp only [unescape_go, decode4, hd1, hd2, hd3, h4]

/-- Witness for C5: each quantified conjunct applied at a concrete escape:
`A` (valid), `\uD800` (lone surrogate half), `\u0` then end of input
(truncation), and `\uZ000` (bad hex digit). -/
theorem C5_witness :
    unescape_go ('u' :: '0' :: '0' :: '4' :: '1' :: []) true =
      push_char 'A' (unescape_go [] false) ∧
    unescape_go ('u' :: 'D' :: '8' :: '0' :: '0' :: []) true =
      .error .InvalidCodePointValue ∧
    unescape_go ('u' :: ['0']) true = .error .UnfinishedEscape ∧
    unescape_go ('u' :: 'Z' :: '0' :: '0' :: '0' :: []) true =
      .error .InvalidHexValue :=
  ⟨C5_unicode_escape_decoding.1 '0' '0' '4' '1' [] 0 0 4 1 'A' rfl rfl rfl rfl rfl,
   C5_unicode_escape_decoding.2.1 'D' '8' '0' '0' [] 13 8 0 0 rfl rfl rfl rfl rfl,
   C5_unicode_escape_decoding.2.2.1 ['0'] (by decide) (by decide),
   C5_unicode_escape_decoding.2.2.2.1 'Z' '0' '0' '0' [] (Or.inl rfl)⟩

/-- Claim C6: the escaping-state `f` arm emits code point 18 (U+0012), not
the form feed 12 (U+000C): at the head of the escape, after a backslash in
unescaped state, and on the concrete content `\f`. -/
theorem C6_formfeed_escape_maps_to_u0012 :
    (∀ rest, unescape_go ('f' :: rest) true =
      push_char (Char.ofNat 18) (unescape_go rest false)) ∧
    (∀ rest, unescape_go ('\\' :: 'f' :: rest) false =
      push_char (Char.ofNat 18) (unescape_go rest false)) ∧
    unescape_string "\\f" = .ok (String.mk [Char.ofNat 18]) ∧
    Char.ofNat 18 ≠ Char.ofNat 12 := by
  refine ⟨fun rest => ?_, fun rest => ?_, rfl, by decide⟩
  · simp only [unescape_go]
  · simp only [unescape_go]
    norm_num

/-- Counterexample for C7: an input that is a lone `.` does not fail with
`ParseNumberError`; it fails with `CharNotRecognized`, because `.` matches
no dispatch arm of `make_token` (a number token can only start at an ASCII
digit). -/
theorem C7_lone_dot_counterexample :
    tokenize ".".data = .err (.CharNotRecognized '.') ∧
    (.err (.CharNotRecognized '.') : RRes TokenizeError (List Token)) ≠
      .err .ParseNumberError :=
  ⟨rfl, by decide⟩

/-- Claim C7 as amended: when number scanning's accumulated text fails to
parse, `tokenize_float` fails with `ParseNumberError`; a lone `.`,
however, never reaches number scanning — `tokenize` fails on it with
`CharNotRecognized('.')`. -/
theorem C7_amended_ParseNumberError :
    (∀ chars index,
      parse_float_q (float_loop (List.drop index chars) false).1 = none →
      tokenize_float chars index = .err .ParseNumberError) ∧
    tokenize ".".data = .err (.CharNotRecognized '.') := by
  refine ⟨fun chars index h => ?_, rfl⟩
  simp only [tokenize_float]
  rw [h]

/-- Witness for C7: the amended conditional applied where the accumulated
text is the unparsable lone `.` (reachable for `tokenize_float` called on
that character directly). -/
theorem C7_witness : tokenize_float ".".data 0 = .err .ParseNumberError :=
  C7_amended_ParseNumberError.1 ".".data 0 rfl

/-- Claim C9: on the empty input and on any all-whitespace input,
tokenizing succeeds with the empty token sequence, and `parse` then
produces neither a value nor a typed error: `parse_tokens` indexes
position 0 of the empty sequence, out of bounds. -/
theorem C9_empty_and_whitespace_input :
    parse [] = .oob ∧
    (∀ s : List Char, s.all rust_is_whitespace = true →
      tokenize s = .ok [] ∧ parse s = .oob) := by
  refine ⟨rfl, fun s hs => ?_⟩
  have ht : tokenize s = .ok [] :=
    tokenize_loop_whitespace (s.length + 1) s 0 [] hs (by omega)
  refine ⟨ht, ?_⟩
  simp [parse, ht]
  rfl

/-- Witness for C9: a concrete whitespace-only input. -/
theorem C9_witness : tokenize " \t\n".data = .ok [] ∧ parse " \t\n".data = .oob :=
  C9_empty_and_whitespace_input.2 " \t\n".data rfl

/-- Claim C10: `parse` never checks that the token sequence is exhausted:
whenever `parse_tokens` succeeds from cursor zero with tokens left over,
`parse` succeeds with that value, ignoring the remaining tokens. -/
theorem C10_trailing_tokens_ignored :
    ∀ (input : List Char) (tokens : List Token) (v : Value) (i : Nat),
      tokenize input = .ok tokens →
      parse_tokens (parse_fuel tokens) tokens 0 = .ok (v, i) →
      i < tokens.length →
      parse input = .ok v := by
  intro input tokens v i h1 h2 _
  simp [parse, h1, h2]

/-- Witness for C10: `true null` parses to the leading `true`, the `null`
token (cursor 1 of 2) silently ignored. -/
theorem C10_witness : parse "true null".data = .ok (.Boolean true) :=
  C10_trailing_tokens_ignored "true null".data [Token.True, Token.Null]
    (.Boolean true) 1 rfl rfl (by decide)

end JsonParser
